import Mathlib

/-!
Shallow embedding of the Toasavi toast-notification manager
(class ToasaviManager of the repository source) and proofs about its
lifecycle operations: showToast, removeToast, limitToasts, clear, the
close-button click handler, and the two kinds of scheduled callbacks
(the auto-dismiss timer and the 300 ms removal finalizer).

Modelling decisions, each taken from the source:
- The registry Map of string -> HTMLElement is an insertion-ordered
  association list, with get / set / delete mirroring JavaScript Map
  semantics for unique keys (set of an existing key updates in place,
  set of a new key appends at the end).
- A toast element keeps the fields the manager reads or writes: the
  message text, style type, extra class name, whether a close button
  was attached, whether onClick and onClose callbacks were supplied,
  whether the toasavi-removing class has been added, and a creation
  stamp.  Callback invocations are recorded in logs on the manager
  state; the source never reads the onClose option, so nothing in the
  embedding appends to the onClose log.
- generateId uses Math.random in the source; the embedding generates a
  deterministic fresh identifier from a counter, matching the sources
  stated assumption that identifiers are unique.
- setTimeout callbacks become pending events: an auto-dismiss event
  carrying its scheduled delay, and a removal-finalize event (the
  anonymous 300 ms callback inside removeToast).  fireEvent delivers a
  pending event; any interleaving of deliveries can be explored.
- The container is present exactly when a window existed at
  construction time (initContainer returns early otherwise).
-/

namespace Toasavi

/-- Toast style classification (the type field of ToastOptions). -/
inductive ToastType
  | success
  | error
  | warning
  | info
deriving DecidableEq

/-- Anchor position of the display surface (the position options). -/
inductive ToastPosition
  | topRight
  | topLeft
  | bottomRight
  | bottomLeft
  | topCenter
  | bottomCenter
deriving DecidableEq

/-- Fully-resolved manager configuration (Required of ToasaviConfig). -/
structure ToasaviConfig where
  defaultDuration : Int
  defaultPosition : ToastPosition
  maxToasts : Nat
  spacing : Int
  zIndex : Int
deriving DecidableEq

/-- Caller-supplied partial configuration (ToasaviConfig in the source,
all fields optional). -/
structure ToasaviConfigOpt where
  defaultDuration : Option Int := none
  defaultPosition : Option ToastPosition := none
  maxToasts : Option Nat := none
  spacing : Option Int := none
  zIndex : Option Int := none
deriving DecidableEq

/-- The constructor merges the caller configuration over the built-in
defaults (defaultDuration 4000, position top-right, maxToasts 5,
spacing 10, zIndex 10000). -/
def mergeConfig (c : ToasaviConfigOpt) : ToasaviConfig :=
  { defaultDuration := c.defaultDuration.getD 4000
    defaultPosition := c.defaultPosition.getD ToastPosition.topRight
    maxToasts := c.maxToasts.getD 5
    spacing := c.spacing.getD 10
    zIndex := c.zIndex.getD 10000 }

/-- Per-call options of show (ToastOptions).  Callbacks are modelled by
their presence; invocations are logged on the manager state. -/
structure ToastOptions where
  message : String
  type : Option ToastType := none
  duration : Option Int := none
  position : Option ToastPosition := none
  closable : Option Bool := none
  className : Option String := none
  onClick : Bool := false
  onClose : Bool := false
deriving DecidableEq

/-- The state of one toast element that the manager reads or writes. -/
structure ToastElem where
  message : String
  ttype : ToastType
  className : String
  hasCloseBtn : Bool
  hasOnClick : Bool
  hasOnClose : Bool
  removing : Bool
  createdAt : Nat
deriving DecidableEq

/-- A pending setTimeout callback: the auto-dismiss timer scheduled by
show (carrying its delay in milliseconds), or the 300 ms removal
finalizer scheduled by removeToast. -/
inductive Ev
  | autoDismiss (id : String) (delay : Int)
  | finalizeRemove (id : String)
deriving DecidableEq

/-- The whole manager state: container presence, the ordered list of
element identifiers attached to the container, the registry (the
toasts Map), the configuration, pending setTimeout events, callback
invocation logs, and the fresh-identifier counter. -/
structure Mgr where
  container : Bool
  children : List String
  toasts : List (String × ToastElem)
  config : ToasaviConfig
  pending : List Ev
  onClickLog : List String
  onCloseLog : List String
  nextId : Nat
deriving DecidableEq

/-- Map.get on the insertion-ordered registry. -/
def mapGet : List (String × ToastElem) → String → Option ToastElem
  | [], _ => none
  | p :: rest, id => if p.1 = id then some p.2 else mapGet rest id

/-- Map.set: update in place when the key exists, append otherwise. -/
def mapSet : List (String × ToastElem) → String → ToastElem → List (String × ToastElem)
  | [], id, t => [(id, t)]
  | p :: rest, id, t => if p.1 = id then (id, t) :: rest else p :: mapSet rest id t

/-- Map.delete. -/
def mapDelete : List (String × ToastElem) → String → List (String × ToastElem)
  | [], _ => []
  | p :: rest, id => if p.1 = id then mapDelete rest id else p :: mapDelete rest id

/-- Deterministic stand-in for generateId (Math.random base-36 token in
the source); the counter guarantees the uniqueness the source assumes. -/
def idOf (n : Nat) : String := "toast-" ++ toString n

/-- removeToast(id): if the id is in the registry, add the
toasavi-removing class to its element and schedule the 300 ms
finalizer; otherwise do nothing.  The registry entry is NOT deleted
here: deletion happens only when the finalizer runs. -/
def removeToast (s : Mgr) (id : String) : Mgr :=
  match mapGet s.toasts id with
  | none => s
  | some t =>
      { s with
        toasts := mapSet s.toasts id { t with removing := true }
        pending := s.pending ++ [Ev.finalizeRemove id] }

/-- The body of the 300 ms setTimeout inside removeToast: detach the
element from the container if still attached, then delete the id from
the registry. -/
def runFinalize (s : Mgr) (id : String) : Mgr :=
  { s with
    children := s.children.filter (fun c => c ≠ id)
    toasts := mapDelete s.toasts id }

/-- limitToasts: when the registry size has reached maxToasts, call
removeToast on the first entry of the registry (the element whose
dataset carries its own key). -/
def limitToasts (s : Mgr) : Mgr :=
  if s.config.maxToasts ≤ s.toasts.length then
    match s.toasts.head? with
    | some p => removeToast s p.1
    | none => s
  else s

/-- The toast element built by show from the options: the close button
is attached unless closable is exactly false, and the onClick handler
is installed exactly when one was supplied. -/
def mkElem (o : ToastOptions) (createdAt : Nat) : ToastElem :=
  { message := o.message
    ttype := o.type.getD ToastType.info
    className := o.className.getD ""
    hasCloseBtn := match o.closable with | some false => false | _ => true
    hasOnClick := o.onClick
    hasOnClose := o.onClose
    removing := false
    createdAt := createdAt }

/-- show(options): return the empty identifier when no container
exists; otherwise run limitToasts, create the element under a fresh
id, append it to the container and the registry, resolve the duration
(per-call value if supplied, else the configured default) and schedule
the auto-dismiss timer exactly when the resolved duration is positive. -/
def showToast (s : Mgr) (o : ToastOptions) : String × Mgr :=
  if s.container = true then
    let s1 := limitToasts s
    let id := idOf s1.nextId
    let elem := mkElem o s1.nextId
    let s2 : Mgr :=
      { s1 with
        children := s1.children ++ [id]
        toasts := mapSet s1.toasts id elem
        nextId := s1.nextId + 1 }
    let d := o.duration.getD s2.config.defaultDuration
    if 0 < d then
      (id, { s2 with pending := s2.pending ++ [Ev.autoDismiss id d] })
    else
      (id, s2)
  else ("", s)

/-- clear(): call removeToast for every id in the registry at call
time (forEach over the Map; removeToast mutates no keys, so the
snapshot is the key list). -/
def clear (s : Mgr) : Mgr :=
  (s.toasts.map (fun p => p.1)).foldl removeToast s

/-- Delivery of one pending setTimeout callback. -/
def deliver (s : Mgr) : Ev → Mgr
  | Ev.autoDismiss id _ => removeToast s id
  | Ev.finalizeRemove id => runFinalize s id

/-- Fire the i-th pending event (events may fire in any order allowed
by their delays; the index selects the interleaving). -/
def fireEvent (s : Mgr) (i : Nat) : Mgr :=
  match s.pending.get? i with
  | none => s
  | some e => deliver { s with pending := s.pending.eraseIdx i } e

/-- A click on the close button of toast id (when one was attached):
the button handler stops propagation and calls removeToast, so the
bubbling phase never reaches the onclick handler of the toast body. -/
def clickCloseButton (s : Mgr) (id : String) : Mgr :=
  match mapGet s.toasts id with
  | none => s
  | some t =>
      if t.hasCloseBtn = true then
        let stopped := true
        let s1 := removeToast s id
        if (!stopped && t.hasOnClick) = true then
          { s1 with onClickLog := s1.onClickLog ++ [id] }
        else s1
      else s

/-- A click on the toast body: runs the onclick handler when one was
installed; does not dismiss the toast. -/
def clickToastBody (s : Mgr) (id : String) : Mgr :=
  match mapGet s.toasts id with
  | none => s
  | some t =>
      if t.hasOnClick = true then
        { s with onClickLog := s.onClickLog ++ [id] }
      else s

/-- Constructor: the container exists exactly when a window does
(initContainer returns early in a non-interactive environment). -/
def mkManager (c : ToasaviConfigOpt) (hasWindow : Bool) : Mgr :=
  { container := hasWindow
    children := []
    toasts := []
    config := mergeConfig c
    pending := []
    onClickLog := []
    onCloseLog := []
    nextId := 0 }

/-! ### Helper lemmas about the registry operations -/

theorem mapGet_set_self (m : List (String × ToastElem)) (id : String) (t : ToastElem) :
    mapGet (mapSet m id t) id = some t := by
  induction m with
  | nil => simp [mapGet, mapSet]
  | cons p rest ih =>
      obtain ⟨a, b⟩ := p
      by_cases h : a = id
      · simp [mapGet, mapSet, h]
      · simp [mapGet, mapSet, h, ih]

theorem mapGet_set_ne (m : List (String × ToastElem)) (id j : String) (t : ToastElem)
    (h : j ≠ id) : mapGet (mapSet m id t) j = mapGet m j := by
  induction m with
  | nil => simp [mapGet, mapSet, Ne.symm h]
  | cons p rest ih =>
      obtain ⟨a, b⟩ := p
      by_cases hp : a = id
      · subst hp
        simp [mapGet, mapSet, Ne.symm h]
      · simp [mapGet, mapSet, hp, ih]

theorem mapSet_of_get_eq (m : List (String × ToastElem)) (id : String) (t : ToastElem)
    (h : mapGet m id = some t) : mapSet m id t = m := by
  induction m with
  | nil => simp [mapGet] at h
  | cons p rest ih =>
      obtain ⟨a, b⟩ := p
      by_cases hp : a = id
      · subst hp
        simp [mapGet] at h
        simp [mapSet, h]
      · simp [mapGet, hp] at h
        simp [mapSet, hp, ih h]

theorem length_mapSet_of_get_none (m : List (String × ToastElem)) (id : String)
    (t : ToastElem) (h : mapGet m id = none) : (mapSet m id t).length = m.length + 1 := by
  induction m with
  | nil => simp [mapSet]
  | cons p rest ih =>
      obtain ⟨a, b⟩ := p
      by_cases hp : a = id
      · simp [mapGet, hp] at h
      · simp [mapGet, hp] at h
        simp [mapSet, hp, ih h]

theorem length_mapSet_of_get_some (m : List (String × ToastElem)) (id : String)
    (t t0 : ToastElem) (h : mapGet m id = some t0) : (mapSet m id t).length = m.length := by
  induction m with
  | nil => simp [mapGet] at h
  | cons p rest ih =>
      obtain ⟨a, b⟩ := p
      by_cases hp : a = id
      · simp [mapSet, hp]
      · simp [mapGet, hp] at h
        simp [mapSet, hp, ih h]

theorem mapGet_delete_ne (m : List (String × ToastElem)) (id j : String)
    (h : j ≠ id) : mapGet (mapDelete m id) j = mapGet m j := by
  induction m with
  | nil => simp [mapDelete]
  | cons p rest ih =>
      obtain ⟨a, b⟩ := p
      by_cases hp : a = id
      · subst hp
        simp [mapGet, mapDelete, Ne.symm h, ih]
      · simp [mapGet, mapDelete, hp, ih]

theorem isSome_mapGet_set (m : List (String × ToastElem)) (id j : String) (t : ToastElem)
    (h : (mapGet m j).isSome = true) : (mapGet (mapSet m id t) j).isSome = true := by
  by_cases hj : j = id
  · subst hj
    simp [mapGet_set_self]
  · rw [mapGet_set_ne m id j t hj]
    exact h

/-! ### Helper lemmas about removeToast and limitToasts -/

theorem removeToast_of_get_none (s : Mgr) (id : String)
    (h : mapGet s.toasts id = none) : removeToast s id = s := by
  simp [removeToast, h]

theorem removeToast_parts (s : Mgr) (id : String) (t : ToastElem)
    (h : mapGet s.toasts id = some t) :
    removeToast s id =
      { s with
        toasts := mapSet s.toasts id { t with removing := true }
        pending := s.pending ++ [Ev.finalizeRemove id] } := by
  simp [removeToast, h]

theorem removeToast_children (s : Mgr) (id : String) :
    (removeToast s id).children = s.children := by
  unfold removeToast
  cases mapGet s.toasts id <;> rfl

theorem removeToast_config (s : Mgr) (id : String) :
    (removeToast s id).config = s.config := by
  unfold removeToast
  cases mapGet s.toasts id <;> rfl

theorem removeToast_container (s : Mgr) (id : String) :
    (removeToast s id).container = s.container := by
  unfold removeToast
  cases mapGet s.toasts id <;> rfl

theorem removeToast_nextId (s : Mgr) (id : String) :
    (removeToast s id).nextId = s.nextId := by
  unfold removeToast
  cases mapGet s.toasts id <;> rfl

theorem removeToast_onClickLog (s : Mgr) (id : String) :
    (removeToast s id).onClickLog = s.onClickLog := by
  unfold removeToast
  cases mapGet s.toasts id <;> rfl

theorem removeToast_onCloseLog (s : Mgr) (id : String) :
    (removeToast s id).onCloseLog = s.onCloseLog := by
  unfold removeToast
  cases mapGet s.toasts id <;> rfl

theorem mapGet_removeToast_ne (s : Mgr) (i j : String) (h : j ≠ i) :
    mapGet (removeToast s i).toasts j = mapGet s.toasts j := by
  unfold removeToast
  cases hg : mapGet s.toasts i with
  | none => rfl
  | some t => simp [mapGet_set_ne _ _ _ _ h]

theorem removeToast_pending_mem (s : Mgr) (id : String) (e : Ev)
    (h : e ∈ s.pending) : e ∈ (removeToast s id).pending := by
  unfold removeToast
  cases mapGet s.toasts id with
  | none => exact h
  | some t => exact List.mem_append_left _ h

theorem limitToasts_nextId (s : Mgr) : (limitToasts s).nextId = s.nextId := by
  unfold limitToasts
  split
  · cases s.toasts.head? with
    | none => rfl
    | some p => exact removeToast_nextId s p.1
  · rfl

theorem limitToasts_config (s : Mgr) : (limitToasts s).config = s.config := by
  unfold limitToasts
  split
  · cases s.toasts.head? with
    | none => rfl
    | some p => exact removeToast_config s p.1
  · rfl

theorem limitToasts_at_capacity (s : Mgr) (i0 : String) (t0 : ToastElem)
    (hhead : s.toasts.head? = some (i0, t0))
    (hcap : s.config.maxToasts ≤ s.toasts.length) :
    limitToasts s = removeToast s i0 := by
  unfold limitToasts
  rw [if_pos hcap, hhead]

theorem mapGet_of_head (s : Mgr) (i0 : String) (t0 : ToastElem)
    (hhead : s.toasts.head? = some (i0, t0)) :
    mapGet s.toasts i0 = some t0 := by
  cases hts : s.toasts with
  | nil => rw [hts] at hhead; simp at hhead
  | cons p rest =>
      rw [hts] at hhead
      simp at hhead
      rw [hhead]
      simp [mapGet]

/-- Closed form of a successful show call: the fresh identifier, the element
appended after limitToasts ran, and the auto-dismiss timer appended exactly
when the resolved duration is positive. -/
theorem showToast_eq (s : Mgr) (o : ToastOptions) (hc : s.container = true) :
    showToast s o =
      (idOf s.nextId,
       { limitToasts s with
         children := (limitToasts s).children ++ [idOf s.nextId]
         toasts := mapSet (limitToasts s).toasts (idOf s.nextId) (mkElem o s.nextId)
         nextId := s.nextId + 1
         pending := (limitToasts s).pending ++
           (if 0 < o.duration.getD s.config.defaultDuration then
              [Ev.autoDismiss (idOf s.nextId) (o.duration.getD s.config.defaultDuration)]
            else []) }) := by
  by_cases hd : 0 < o.duration.getD s.config.defaultDuration
  · simp [showToast, hc, limitToasts_nextId, limitToasts_config, hd]
  · simp [showToast, hc, limitToasts_nextId, limitToasts_config, hd]

/-! ### Claim C5 -/

/-- Claim C5: when no display surface exists (the container is absent, as in a
non-interactive environment), every call to show returns the empty identifier
and performs no further action at all: the manager state, hence the registry,
the surface, the pending timers, the logs, are returned unchanged, and no
exception arises (showToast is total). -/
theorem show_without_container_is_noop (s : Mgr) (o : ToastOptions)
    (h : s.container = false) :
    showToast s o = ("", s) := by
  simp [showToast, h]

theorem show_without_container_is_noop_witness :
    (mkManager {} false).container = false ∧
    showToast (mkManager {} false) { message := "m" } = ("", mkManager {} false) :=
  ⟨by decide, show_without_container_is_noop (mkManager {} false) { message := "m" } (by decide)⟩

/-! ### Claim C1 -/

def c1Start : Mgr := mkManager {} true

def c1Shown : String × Mgr :=
  showToast c1Start { message := "x", duration := some 0, onClose := true }

def c1Removed : Mgr := removeToast c1Shown.2 c1Shown.1

def c1Final : Mgr := fireEvent c1Removed 0

/-- Claim C1, evaluated on the code at the failing input: a toast shown with an
onClose callback (message x, duration 0) is removed through removeToast and its
finalizer, ending fully detached and deleted from the registry, yet the onClose
invocation log is empty at every stage of the trace.  The source never reads
the onClose option on any removal path, so onClose fires zero times, not
exactly once as the claim states. -/
theorem onClose_never_fires :
    (mapGet c1Shown.2.toasts c1Shown.1).map ToastElem.hasOnClose = some true ∧
    mapGet c1Final.toasts c1Shown.1 = none ∧
    c1Final.children = [] ∧
    c1Shown.2.onCloseLog = [] ∧
    c1Removed.onCloseLog = [] ∧
    c1Final.onCloseLog = [] := by decide

/-! ### Claim C2 -/

def c2Start : Mgr := mkManager { maxToasts := some 1 } true

def c2One : Mgr := (showToast c2Start { message := "a" }).2

def c2Two : Mgr := (showToast c2One { message := "b" }).2

/-- Claim C2 (counterexample): with maxToasts configured to 1, after show a
followed by show b the registry holds 2 entries, exceeding maxToasts; eviction
only marks the old record and schedules its deletion 300 ms later, so the
id-to-toast map is over capacity until the finalizer runs. -/
theorem registry_exceeds_capacity :
    c2Two.config.maxToasts = 1 ∧ c2Two.toasts.length = 2 := by decide

/-- Claim C2 (amended): a show call arriving when the registry is at capacity
initiates removal of the oldest record before inserting the new one (the
oldest entry is marked removing and its deletion finalizer is scheduled), and
the new record is inserted under the fresh identifier; but since the deletion
itself is deferred to the 300 ms finalizer, the registry grows to one more
entry than before, so it transiently exceeds maxToasts rather than never
exceeding it. -/
theorem show_at_capacity_evicts_oldest (s : Mgr) (o : ToastOptions)
    (i0 : String) (t0 : ToastElem)
    (hc : s.container = true)
    (hhead : s.toasts.head? = some (i0, t0))
    (hcap : s.config.maxToasts ≤ s.toasts.length)
    (hfresh : mapGet s.toasts (idOf s.nextId) = none) :
    (showToast s o).1 = idOf s.nextId ∧
    Ev.finalizeRemove i0 ∈ (showToast s o).2.pending ∧
    mapGet (showToast s o).2.toasts i0 = some { t0 with removing := true } ∧
    mapGet (showToast s o).2.toasts (idOf s.nextId) = some (mkElem o s.nextId) ∧
    (showToast s o).2.toasts.length = s.toasts.length + 1 := by
  have hget0 : mapGet s.toasts i0 = some t0 := mapGet_of_head s i0 t0 hhead
  have hne : idOf s.nextId ≠ i0 := by
    intro he
    rw [he, hget0] at hfresh
    exact Option.noConfusion hfresh
  have hlim : limitToasts s = removeToast s i0 := limitToasts_at_capacity s i0 t0 hhead hcap
  have hparts := removeToast_parts s i0 t0 hget0
  have hfresh2 : mapGet (limitToasts s).toasts (idOf s.nextId) = none := by
    rw [hlim, hparts]
    simpa [mapGet_set_ne _ _ _ _ hne] using hfresh
  rw [showToast_eq s o hc]
  refine ⟨rfl, ?_, ?_, ?_, ?_⟩
  · simp [hlim, hparts]
  · simp only [hlim, hparts]
    rw [mapGet_set_ne _ _ _ _ (Ne.symm hne)]
    exact mapGet_set_self _ _ _
  · exact mapGet_set_self _ _ _
  · rw [length_mapSet_of_get_none _ _ _ hfresh2, hlim, hparts]
    simp [length_mapSet_of_get_some _ _ _ _ hget0]

theorem show_at_capacity_evicts_oldest_witness :
    c2One.container = true ∧
    c2One.toasts.head? = some (idOf 0, mkElem { message := "a" } 0) ∧
    c2One.config.maxToasts ≤ c2One.toasts.length ∧
    mapGet c2One.toasts (idOf c2One.nextId) = none ∧
    ((showToast c2One { message := "b" }).1 = idOf c2One.nextId ∧
     Ev.finalizeRemove (idOf 0) ∈ (showToast c2One { message := "b" }).2.pending ∧
     mapGet (showToast c2One { message := "b" }).2.toasts (idOf 0) =
       some { mkElem { message := "a" } 0 with removing := true } ∧
     mapGet (showToast c2One { message := "b" }).2.toasts (idOf c2One.nextId) =
       some (mkElem { message := "b" } c2One.nextId) ∧
     (showToast c2One { message := "b" }).2.toasts.length = c2One.toasts.length + 1) :=
  ⟨by decide, by decide, by decide, by decide,
   show_at_capacity_evicts_oldest c2One { message := "b" } (idOf 0)
     (mkElem { message := "a" } 0) (by decide) (by decide) (by decide) (by decide)⟩

/-! ### Claim C3 -/

def c3Shown : String × Mgr :=
  showToast (mkManager {} true) { message := "x", duration := some 5000 }

def c3Removed : Mgr := removeToast c3Shown.2 c3Shown.1

/-- Claim C3 (counterexample): show a toast with duration 5000 and call
removeToast before the timer fires; the auto-dismiss timer is still pending
after the call (nothing in removeToast touches the timer), and delivering it
runs removeToast again, so the pending timer is not cancelled, contrary to the
claim. -/
theorem manual_remove_keeps_timer_pending :
    Ev.autoDismiss c3Shown.1 5000 ∈ c3Shown.2.pending ∧
    Ev.autoDismiss c3Shown.1 5000 ∈ c3Removed.pending ∧
    deliver c3Removed (Ev.autoDismiss c3Shown.1 5000) = removeToast c3Removed c3Shown.1 :=
  ⟨by decide, by decide, rfl⟩

/-- Claim C3 (amended): removeToast does not cancel the pending auto-dismiss
timer; the timer event stays scheduled after the call.  The design instead
relies on idempotence: when the timer later fires after the manual removal has
completed (the id no longer in the registry), its removeToast call is a
complete no-op, so the timer path performs no removal of its own after the
manual path. -/
theorem timer_not_cancelled_but_harmless (s s2 : Mgr) (id : String) (d : Int)
    (hp : Ev.autoDismiss id d ∈ s.pending)
    (habs : mapGet s2.toasts id = none) :
    Ev.autoDismiss id d ∈ (removeToast s id).pending ∧
    deliver s2 (Ev.autoDismiss id d) = s2 :=
  ⟨removeToast_pending_mem s id _ hp, removeToast_of_get_none s2 id habs⟩

theorem timer_not_cancelled_but_harmless_witness :
    Ev.autoDismiss c3Shown.1 5000 ∈ c3Shown.2.pending ∧
    mapGet (mkManager {} true).toasts c3Shown.1 = none ∧
    (Ev.autoDismiss c3Shown.1 5000 ∈ (removeToast c3Shown.2 c3Shown.1).pending ∧
     deliver (mkManager {} true) (Ev.autoDismiss c3Shown.1 5000) = mkManager {} true) :=
  ⟨by decide, by decide,
   timer_not_cancelled_but_harmless c3Shown.2 (mkManager {} true) c3Shown.1 5000
     (by decide) (by decide)⟩

/-! ### Claim C4 -/

def c4Start : Mgr := mkManager { maxToasts := some 2 } true

def c4A : Mgr := (showToast c4Start { message := "a" }).2

def c4B : Mgr := (showToast c4A { message := "b" }).2

def c4C : Mgr := (showToast c4B { message := "c" }).2

/-- Claim C4: when a show call at capacity triggers eviction, the evicted
record is the first entry of the insertion-ordered registry, which is the
least-recently-created toast still live (creation stamps increase along the
registry), and every other registry entry survives the call.  Liveness is read
as presence in the registry, in line with the data model, where a record is in
the registry exactly while its element is attached or mid-removal-animation.
The witness instantiates the spec scenario: maxToasts 2, show a, b, c. -/
theorem eviction_targets_least_recently_created (s : Mgr) (o : ToastOptions)
    (i0 : String) (t0 : ToastElem)
    (hc : s.container = true)
    (hhead : s.toasts.head? = some (i0, t0))
    (hcap : s.config.maxToasts ≤ s.toasts.length)
    (hsorted : s.toasts.Pairwise (fun p q => p.2.createdAt < q.2.createdAt)) :
    Ev.finalizeRemove i0 ∈ (showToast s o).2.pending ∧
    (∀ p ∈ s.toasts, t0.createdAt ≤ p.2.createdAt) ∧
    (∀ j, j ≠ i0 → (mapGet s.toasts j).isSome = true →
      (mapGet (showToast s o).2.toasts j).isSome = true) := by
  have hget0 : mapGet s.toasts i0 = some t0 := mapGet_of_head s i0 t0 hhead
  have hlim : limitToasts s = removeToast s i0 := limitToasts_at_capacity s i0 t0 hhead hcap
  have hparts := removeToast_parts s i0 t0 hget0
  refine ⟨?_, ?_, ?_⟩
  · rw [showToast_eq s o hc]
    simp [hlim, hparts]
  · intro p hp
    cases hts : s.toasts with
    | nil => rw [hts] at hhead; simp at hhead
    | cons ph rest =>
        rw [hts] at hhead hp hsorted
        simp at hhead
        rw [List.pairwise_cons] at hsorted
        rcases List.mem_cons.mp hp with h1 | h2
        · subst h1
          rw [hhead]
        · have hlt := hsorted.1 p h2
          rw [hhead] at hlt
          exact le_of_lt hlt
  · intro j hj hsome
    rw [showToast_eq s o hc]
    apply isSome_mapGet_set
    rw [hlim, mapGet_removeToast_ne s i0 j hj]
    exact hsome

theorem eviction_targets_least_recently_created_witness :
    c4B.container = true ∧
    c4B.toasts.head? = some (idOf 0, mkElem { message := "a" } 0) ∧
    c4B.config.maxToasts ≤ c4B.toasts.length ∧
    c4B.toasts.Pairwise (fun p q => p.2.createdAt < q.2.createdAt) ∧
    Ev.finalizeRemove (idOf 0) ∈ c4C.pending ∧
    (mkElem { message := "a" } 0).createdAt ≤ (mkElem { message := "b" } 1).createdAt ∧
    (mapGet c4C.toasts (idOf 1)).isSome = true ∧
    (mapGet c4C.toasts (idOf 0)).map ToastElem.removing = some true ∧
    (mapGet c4C.toasts (idOf 1)).map ToastElem.removing = some false ∧
    (mapGet c4C.toasts (idOf 2)).map ToastElem.removing = some false :=
  ⟨by decide, by decide, by decide, by decide,
   (eviction_targets_least_recently_created c4B { message := "c" } (idOf 0)
     (mkElem { message := "a" } 0) (by decide) (by decide) (by decide) (by decide)).1,
   (eviction_targets_least_recently_created c4B { message := "c" } (idOf 0)
     (mkElem { message := "a" } 0) (by decide) (by decide) (by decide) (by decide)).2.1
     (idOf 1, mkElem { message := "b" } 1) (by decide),
   (eviction_targets_least_recently_created c4B { message := "c" } (idOf 0)
     (mkElem { message := "a" } 0) (by decide) (by decide) (by decide) (by decide)).2.2
     (idOf 1) (by decide) (by decide),
   by decide, by decide, by decide⟩

/-! ### Claim C6 -/

def c6M : Mgr := mkManager {} true

def c6O : ToastOptions := { message := "p", duration := some 0 }

/-- Claim C6: for every show call on a manager with a display surface, the
pending events after the call are those after limitToasts plus exactly one
auto-dismiss timer for the new id carrying the resolved duration (the per-call
duration when supplied, else the configured default) when that duration is
positive, and nothing otherwise; delivering an auto-dismiss event is exactly
removeToast on its id.  So a resolved duration of 0 schedules no timer for the
new toast: it can leave the registry only through the explicit removal path. -/
theorem show_duration_semantics (s s2 : Mgr) (o : ToastOptions) (j : String) (d : Int)
    (hc : s.container = true) :
    (showToast s o).2.pending =
      (limitToasts s).pending ++
        (if 0 < o.duration.getD s.config.defaultDuration then
           [Ev.autoDismiss (showToast s o).1 (o.duration.getD s.config.defaultDuration)]
         else []) ∧
    deliver s2 (Ev.autoDismiss j d) = removeToast s2 j := by
  refine ⟨?_, rfl⟩
  rw [showToast_eq s o hc]

theorem show_duration_semantics_witness :
    c6M.container = true ∧
    ((showToast c6M c6O).2.pending =
       (limitToasts c6M).pending ++
         (if 0 < c6O.duration.getD c6M.config.defaultDuration then
            [Ev.autoDismiss (showToast c6M c6O).1 (c6O.duration.getD c6M.config.defaultDuration)]
          else []) ∧
     deliver c6M (Ev.autoDismiss "q" 7) = removeToast c6M "q") :=
  ⟨by decide, show_duration_semantics c6M c6M c6O "q" 7 (by decide)⟩

/-! ### Claims C7 and C10: idempotence and frame conditions of removal -/

theorem mapDelete_idem (m : List (String × ToastElem)) (id : String) :
    mapDelete (mapDelete m id) id = mapDelete m id := by
  induction m with
  | nil => rfl
  | cons p rest ih =>
      obtain ⟨a, b⟩ := p
      by_cases hp : a = id
      · simp [mapDelete, hp, ih]
      · simp [mapDelete, hp, ih]

theorem filter_ne_idem (l : List String) (id : String) :
    (l.filter (fun c => c ≠ id)).filter (fun c => c ≠ id) = l.filter (fun c => c ≠ id) :=
  List.filter_eq_self.mpr (fun _ ha => (List.mem_filter.mp ha).2)

def c7M : Mgr := (showToast (mkManager {} true) { message := "w" }).2

/-- Claim C7: removeToast is idempotent: on an id not present in the registry
it is a complete no-op (the whole state is returned unchanged), and a second
call on the same id changes neither the registry, nor the display surface,
nor the configuration, nor the callback logs beyond the first call (it only
re-marks the already-marked element and schedules a redundant finalizer), and
the deferred finalizer is itself idempotent on the whole state, so the
redundant finalizer has no further effect either. -/
theorem removeToast_idempotent (s : Mgr) (id : String) :
    (mapGet s.toasts id = none → removeToast s id = s) ∧
    (removeToast (removeToast s id) id).toasts = (removeToast s id).toasts ∧
    (removeToast (removeToast s id) id).children = (removeToast s id).children ∧
    (removeToast (removeToast s id) id).config = (removeToast s id).config ∧
    (removeToast (removeToast s id) id).onCloseLog = (removeToast s id).onCloseLog ∧
    runFinalize (runFinalize s id) id = runFinalize s id := by
  refine ⟨fun hn => removeToast_of_get_none s id hn, ?_, removeToast_children _ _,
    removeToast_config _ _, removeToast_onCloseLog _ _, ?_⟩
  · cases hg : mapGet s.toasts id with
    | none => simp [removeToast_of_get_none s id hg]
    | some t =>
        have hg2 : mapGet (removeToast s id).toasts id = some { t with removing := true } := by
          rw [removeToast_parts s id t hg]
          exact mapGet_set_self _ _ _
        rw [removeToast_parts (removeToast s id) id { t with removing := true } hg2]
        exact mapSet_of_get_eq _ _ _ hg2
  · simp [runFinalize, mapDelete_idem, filter_ne_idem]

theorem removeToast_idempotent_witness :
    (mapGet c7M.toasts "nope" = none ∧ removeToast c7M "nope" = c7M) ∧
    ((removeToast (removeToast c7M (idOf 0)) (idOf 0)).toasts = (removeToast c7M (idOf 0)).toasts ∧
     (removeToast (removeToast c7M (idOf 0)) (idOf 0)).children = (removeToast c7M (idOf 0)).children ∧
     (removeToast (removeToast c7M (idOf 0)) (idOf 0)).config = (removeToast c7M (idOf 0)).config ∧
     (removeToast (removeToast c7M (idOf 0)) (idOf 0)).onCloseLog = (removeToast c7M (idOf 0)).onCloseLog ∧
     runFinalize (runFinalize c7M (idOf 0)) (idOf 0) = runFinalize c7M (idOf 0)) :=
  ⟨⟨by decide, (removeToast_idempotent c7M "nope").1 (by decide)⟩,
   (removeToast_idempotent c7M (idOf 0)).2⟩

/-- Claim C10: removeToast only affects its own record: for distinct ids i and
j, both the immediate removeToast call on i and its deferred finalizer leave
the registry entry of j, the attachment of j to the display surface, and the
configuration of the manager unchanged. -/
theorem removeToast_frame (s : Mgr) (i j : String) (hne : j ≠ i) :
    mapGet (removeToast s i).toasts j = mapGet s.toasts j ∧
    (removeToast s i).children = s.children ∧
    (removeToast s i).config = s.config ∧
    mapGet (runFinalize s i).toasts j = mapGet s.toasts j ∧
    ((j ∈ (runFinalize s i).children) ↔ j ∈ s.children) ∧
    (runFinalize s i).config = s.config := by
  refine ⟨mapGet_removeToast_ne s i j hne, removeToast_children s i, removeToast_config s i,
    mapGet_delete_ne s.toasts i j hne, ?_, rfl⟩
  simp [runFinalize, List.mem_filter, hne]

theorem removeToast_frame_witness :
    idOf 1 ≠ idOf 0 ∧
    (mapGet (removeToast c4B (idOf 0)).toasts (idOf 1) = mapGet c4B.toasts (idOf 1) ∧
     (removeToast c4B (idOf 0)).children = c4B.children ∧
     (removeToast c4B (idOf 0)).config = c4B.config ∧
     mapGet (runFinalize c4B (idOf 0)).toasts (idOf 1) = mapGet c4B.toasts (idOf 1) ∧
     ((idOf 1 ∈ (runFinalize c4B (idOf 0)).children) ↔ idOf 1 ∈ c4B.children) ∧
     (runFinalize c4B (idOf 0)).config = c4B.config) :=
  ⟨by decide, removeToast_frame c4B (idOf 0) (idOf 1) (by decide)⟩

/-! ### Claim C8 -/

def c8M : Mgr :=
  (showToast (mkManager {} true) { message := "y", closable := some true, onClick := true }).2

/-- Claim C8: for a closable toast (one whose close button was attached), a
click on the dismiss affordance is exactly removeToast on that id: the button
handler stops propagation, so the onclick handler of the toast body is never
invoked for the same click (the onClick invocation log is unchanged), while
the removal is triggered (the element is marked removing and its removal
finalizer is scheduled). -/
theorem close_click_removes_without_onClick (s : Mgr) (id : String) (t : ToastElem)
    (hget : mapGet s.toasts id = some t) (hbtn : t.hasCloseBtn = true) :
    clickCloseButton s id = removeToast s id ∧
    (clickCloseButton s id).onClickLog = s.onClickLog ∧
    Ev.finalizeRemove id ∈ (clickCloseButton s id).pending ∧
    (mapGet (clickCloseButton s id).toasts id).map ToastElem.removing = some true := by
  have hck : clickCloseButton s id = removeToast s id := by
    simp [clickCloseButton, hget, hbtn]
  refine ⟨hck, ?_, ?_, ?_⟩
  · rw [hck]
    exact removeToast_onClickLog s id
  · rw [hck, removeToast_parts s id t hget]
    simp
  · rw [hck, removeToast_parts s id t hget]
    simp [mapGet_set_self]

theorem close_click_removes_without_onClick_witness :
    mapGet c8M.toasts (idOf 0) =
      some (mkElem { message := "y", closable := some true, onClick := true } 0) ∧
    (mkElem { message := "y", closable := some true, onClick := true } 0).hasCloseBtn = true ∧
    (clickCloseButton c8M (idOf 0) = removeToast c8M (idOf 0) ∧
     (clickCloseButton c8M (idOf 0)).onClickLog = c8M.onClickLog ∧
     Ev.finalizeRemove (idOf 0) ∈ (clickCloseButton c8M (idOf 0)).pending ∧
     (mapGet (clickCloseButton c8M (idOf 0)).toasts (idOf 0)).map ToastElem.removing = some true) :=
  ⟨by decide, by decide,
   close_click_removes_without_onClick c8M (idOf 0)
     (mkElem { message := "y", closable := some true, onClick := true } 0)
     (by decide) (by decide)⟩

/-! ### Claim C9 -/

/-- Claim C9: the dismiss affordance is present by default: for every show
call on a manager with a display surface, the element stored for the returned
id carries the close button exactly when closable is not the explicit value
false; in particular, omitting closable yields a toast with the dismiss
affordance. -/
theorem close_button_present_by_default (s : Mgr) (o : ToastOptions)
    (hc : s.container = true) :
    ((mapGet (showToast s o).2.toasts (showToast s o).1).map ToastElem.hasCloseBtn = some true
      ↔ o.closable ≠ some false) := by
  rw [showToast_eq s o hc]
  simp only [mapGet_set_self, Option.map_some]
  cases hcl : o.closable with
  | none => simp [mkElem, hcl]
  | some b => cases b <;> simp [mkElem, hcl]

theorem close_button_present_by_default_witness :
    (mkManager {} true).container = true ∧
    (((mapGet (showToast (mkManager {} true) { message := "m" }).2.toasts
        (showToast (mkManager {} true) { message := "m" }).1).map ToastElem.hasCloseBtn
        = some true)
      ↔ ({ message := "m" } : ToastOptions).closable ≠ some false) :=
  ⟨by decide,
   close_button_present_by_default (mkManager {} true) { message := "m" } (by decide)⟩

end Toasavi
